import Mathlib

/-!
Verification of `src/secret_store/src/acl_storage.rs` (Parity Secret Store
ACL storage): the `AclStorage` trait, the on-chain implementation
`OnChainAclStorage` with its lazily resolved and cached registry contract,
the autogenerated `provider::Contract` ABI wrapper, and the in-memory test
double `DummyAclStorage`.

Machine bytes are modelled as `Nat` (each < 256 where it matters), byte
strings as `List Nat`.  Fallible Rust code returning `Result<T, E>` is
modelled as `Except E T`.  The interior mutability of
`Mutex<Option<provider::Contract>>` and `RwLock<HashMap<..>>` is modelled by
explicit state passing; closures capturing a `Weak<Client>` are modelled as
functions taking the call-time world.
-/

namespace AclStorageModel

/-- A requestor public key (`types::all::Public`, a 64-byte value). -/
abbrev Public := List Nat

/-- A document address (`types::all::DocumentAddress`, a 32-byte hash). -/
abbrev DocumentAddress := List Nat

/-- An account address (`util::Address`, a 20-byte value). -/
abbrev Address := List Nat

/-- A 256-bit hash value (`util::H256`, 32 bytes). -/
abbrev H256 := List Nat

/-- The error type `types::all::Error`; the only variant used by this module
is `Error::Internal(String)`. -/
inductive Error where
  | Internal (msg : String)
  deriving DecidableEq, Repr

/-- `ACL_CHECKER_CONTRACT_REGISTRY_NAME`: the symbolic registry name of the
ACL checker contract. -/
def ACL_CHECKER_CONTRACT_REGISTRY_NAME : String := "secretstore_acl_checker"

/-! ## In-memory test double (`tests::DummyAclStorage`) -/

/-- The state of `DummyAclStorage`: the contents of its
`prohibited: RwLock<HashMap<Public, HashSet<DocumentAddress>>>` field,
modelled as an association list from public keys to lists of prohibited
document addresses (each list used with set semantics). -/
structure DummyAclStorage where
  prohibited : List (Public × List DocumentAddress)
  deriving Repr

/-- The `Default` instance of `DummyAclStorage`: an empty denial map. -/
def DummyAclStorage.empty : DummyAclStorage := ⟨[]⟩

/-- `HashSet::insert`: add an element to a set (modelled as a duplicate-free
insertion into a list). -/
def insertSet (d : DocumentAddress) (s : List DocumentAddress) : List DocumentAddress :=
  if d ∈ s then s else d :: s

/-- `HashMap::get`: look a key up in the association list. -/
def lookupEntry (m : List (Public × List DocumentAddress)) (p : Public) :
    Option (List DocumentAddress) :=
  match m with
  | [] => none
  | (q, s) :: rest => if q = p then some s else lookupEntry rest p

/-- `HashMap::entry(p).or_insert_with(Default::default).insert(d)`: insert
`d` into the set stored at key `p`, creating an empty set first when the key
is absent. -/
def updateEntry (m : List (Public × List DocumentAddress)) (p : Public)
    (d : DocumentAddress) : List (Public × List DocumentAddress) :=
  match m with
  | [] => [(p, insertSet d [])]
  | (q, s) :: rest =>
    if q = p then (q, insertSet d s) :: rest else (q, s) :: updateEntry rest p d

/-- `DummyAclStorage::prohibit`: prohibit the given requestor access to the
given document. -/
def DummyAclStorage.prohibit (st : DummyAclStorage) (p : Public)
    (d : DocumentAddress) : DummyAclStorage :=
  ⟨updateEntry st.prohibited p d⟩

/-- `<DummyAclStorage as AclStorage>::check`:
`Ok(self.prohibited.read().get(public).map(|docs| !docs.contains(document)).unwrap_or(true))`. -/
def DummyAclStorage.check (st : DummyAclStorage) (p : Public)
    (d : DocumentAddress) : Except Error Bool :=
  .ok (((lookupEntry st.prohibited p).map (fun docs => !(decide (d ∈ docs)))).getD true)

/-- Run a sequence of `prohibit` calls, in order, from a starting state. -/
def applyProhibits (st : DummyAclStorage) (ops : List (Public × DocumentAddress)) :
    DummyAclStorage :=
  ops.foldl (fun s pd => s.prohibit pd.1 pd.2) st

/-- The boolean value inside the `Ok` returned by `DummyAclStorage.check`. -/
def checkB (st : DummyAclStorage) (p : Public) (d : DocumentAddress) : Bool :=
  ((lookupEntry st.prohibited p).map (fun docs => !(decide (d ∈ docs)))).getD true


/-! ## ABI types and codec (`ethabi`), modelled from the spec where the
`ethabi` crate's code is not under `src/` -/

/-- The ABI parameter types used by the ACL checker contract interface. -/
inductive ParamType where
  | address
  | bytes32
  | bool
  deriving DecidableEq, Repr

/-- The canonical textual name of a parameter type. -/
def ParamType.typeName : ParamType → String
  | .address => "address"
  | .bytes32 => "bytes32"
  | .bool => "bool"

/-- An `ethabi::Token`: a typed ABI value. -/
inductive Token where
  | Address (a : List Nat)
  | FixedBytes (b : List Nat)
  | Bool (b : Bool)
  deriving DecidableEq, Repr

/-- Modelled from the spec: `ethabi::Token::to_bool` returns the boolean
payload when the token is of boolean type and nothing otherwise (decoding
requires a value of boolean type). -/
def tokenToBool : Token → Option Bool
  | .Bool b => some b
  | _ => none

/-- One function entry of an `ethabi::Interface`, as parsed from the JSON
contract definition. -/
structure FunctionInterface where
  name : String
  inputs : List ParamType
  outputs : List ParamType
  deriving DecidableEq, Repr

/-- The canonical textual signature of a function: its name followed by the
parenthesised comma-separated list of its argument types. -/
def FunctionInterface.signature (f : FunctionInterface) : String :=
  f.name ++ "(" ++ String.intercalate "," (f.inputs.map ParamType.typeName) ++ ")"

/-- Modelled from the spec: the function selector is computed from the
canonical textual signature (in the real codec, the first four bytes of its
keccak hash; keccak is external code not under `src/`, so it is modelled
here as a deterministic injective function of the signature string). -/
def selectorBytes (sig : String) : List Nat :=
  sig.toList.map Char.toNat

/-- Modelled from the spec: whether a token value has the given declared
parameter type. -/
def tokenMatches : Token → ParamType → Bool
  | .Address _, .address => true
  | .FixedBytes _, .bytes32 => true
  | .Bool _, .bool => true
  | _, _ => false

/-- Modelled from the spec: the head (32-byte word) ABI encoding of a
static-type token. -/
def encodeToken : Token → List Nat
  | .Address a => List.replicate 12 0 ++ a
  | .FixedBytes b => b
  | .Bool b => List.replicate 31 0 ++ [if b then 1 else 0]

/-- Modelled from the spec: `ethabi::spec::Function::encode_call` encodes a
function invocation as the selector followed by the encodings of the typed
arguments, rejecting argument lists that do not match the declared input
types. -/
def FunctionInterface.encode_call (f : FunctionInterface) (args : List Token) :
    Except String (List Nat) :=
  if args.length == f.inputs.length
      && (args.zip f.inputs).all (fun q => tokenMatches q.1 q.2) then
    .ok (selectorBytes f.signature ++ (args.map encodeToken).flatten)
  else
    .error "Invalid argument types"

/-- Modelled from the spec: decode one 32-byte word into a token of the
given declared type, rejecting malformed words. -/
def decodeWord : ParamType → List Nat → Except String Token
  | .address, w =>
    if w.take 12 = List.replicate 12 0 then .ok (.Address (w.drop 12))
    else .error "Invalid data for address"
  | .bytes32, w => .ok (.FixedBytes w)
  | .bool, w =>
    if w = List.replicate 31 0 ++ [0] then .ok (.Bool false)
    else if w = List.replicate 31 0 ++ [1] then .ok (.Bool true)
    else .error "Invalid data for bool"

/-- Modelled from the spec: decode raw output bytes into the list of typed
return values declared by the interface, one 32-byte word per static type,
rejecting outputs of the wrong length or shape. -/
def decodeTokens : List ParamType → List Nat → Except String (List Token)
  | [], bytes => if bytes = [] then .ok [] else .error "Invalid data length"
  | t :: ts, bytes =>
    if bytes.length < 32 then .error "Invalid data length"
    else
      match decodeWord t (bytes.take 32), decodeTokens ts (bytes.drop 32) with
      | .ok tok, .ok rest => .ok (tok :: rest)
      | .error e, _ => .error e
      | .ok _, .error e => .error e

/-- Modelled from the spec: `ethabi::spec::Function::decode_output` decodes
raw output bytes according to the function's declared output types. -/
def FunctionInterface.decode_output (f : FunctionInterface) (bytes : List Nat) :
    Except String (List Token) :=
  decodeTokens f.outputs bytes

/-- The interface loaded from the autogenerated JSON contract definition in
`provider::Contract::new`: exactly one function, named `checkPermissions`,
with inputs `(address user, bytes32 document)` and output `(bool)`. -/
def aclCheckerInterface : List FunctionInterface :=
  [⟨"checkPermissions", [ParamType.address, ParamType.bytes32], [ParamType.bool]⟩]

/-- The single function of `aclCheckerInterface`. -/
def checkPermissionsFn : FunctionInterface :=
  ⟨"checkPermissions", [ParamType.address, ParamType.bytes32], [ParamType.bool]⟩

/-- Modelled from the spec: `ethabi::Contract::function` looks a function up
by name in the interface, failing when no function of that name exists. -/
def interfaceFunction (fns : List FunctionInterface) (n : String) :
    Except String FunctionInterface :=
  match fns.find? (fun f => f.name == n) with
  | some f => .ok f
  | none => .error "Invalid function name"

/-! ## `provider::Contract` -/

/-- `provider::Contract`: the autogenerated contract wrapper.  The stored
`do_call` closure may observe mutable or weakly-referenced ambient state, so
it is modelled as a function of a call-time world of type `W`. -/
structure Contract (W : Type) where
  contract : List FunctionInterface
  address : Address
  do_call : W → Address → List Nat → Except String (List Nat)

/-- `provider::Contract::new`: wrap an address and a call closure together
with the interface parsed from the fixed JSON definition. -/
def Contract.new {W : Type} (addr : Address)
    (do_call : W → Address → List Nat → Except String (List Nat)) : Contract W :=
  ⟨aclCheckerInterface, addr, do_call⟩

/-- The result-extraction step of `check_permissions` (the generated
`let mut result = output.into_iter().rev().collect(); result.pop()` followed
by `to_bool`): reverse the decoded output, pop the last element of the
reversed vector (that is, the first decoded value), and require it to be a
boolean. -/
def decode_result (output : List Token) : Except String Bool :=
  match (output.reverse).getLast? with
  | none => .error "Invalid return arity"
  | some r =>
    match tokenToBool r with
    | none => .error "Invalid type returned"
    | some b => .ok b

/-- `provider::Contract::check_permissions`: look up the `checkPermissions`
function, encode the call with the user address and document as arguments,
invoke the stored call closure, decode the output and extract the single
boolean result. -/
def Contract.check_permissions {W : Type} (c : Contract W) (w : W)
    (user : Address) (document : H256) : Except String Bool := do
  let call ← interfaceFunction c.contract "checkPermissions"
  let data ← call.encode_call [Token.Address user, Token.FixedBytes document]
  let raw ← c.do_call w c.address data
  let output ← call.decode_output raw
  decode_result output

/-! ## `OnChainAclStorage` -/

/-- Modelled from the spec: `ethkey::public_to_address`, the deterministic
one-way derivation of an account address from a public key (keccak-based,
external code not under `src/`; modelled as a deterministic stand-in). -/
def public_to_address (p : Public) : Address :=
  p.take 20

/-- The call-time world of the on-chain storage: what the ambient
blockchain client does at the moment of a `check` call.  `registry_address`
models `Client::registry_address` (resolution through the strong `Arc`);
`clientAlive` models whether the `Weak` client reference captured by the
call closure can still be upgraded; `call_contract` models
`Client::call_contract(BlockId::Latest, ..)`. -/
structure World where
  registry_address : String → Option Address
  clientAlive : Bool
  call_contract : Address → List Nat → Except String (List Nat)

/-- The call closure built in `OnChainAclStorage::check`:
`move |a, d| client.upgrade().ok_or("No client!".into()).and_then(|c| c.call_contract(BlockId::Latest, a, d))`. -/
def aclTrampoline (w : World) (a : Address) (d : List Nat) :
    Except String (List Nat) :=
  if w.clientAlive then w.call_contract a d else .error "No client!"

/-- `<OnChainAclStorage as AclStorage>::check`: the contents of the
`Mutex<Option<provider::Contract>>` are passed and returned explicitly.  If
no contract is cached, resolve the registry name and, on success, cache a
contract wrapping the resolved address and the call closure; then either
query the cached contract or report that the checker is not configured. -/
def OnChainAclStorage.check (st : Option (Contract World)) (w : World)
    (public : Public) (document : DocumentAddress) :
    Option (Contract World) × Except Error Bool :=
  let contract : Option (Contract World) :=
    match st with
    | some c => some c
    | none =>
      (w.registry_address ACL_CHECKER_CONTRACT_REGISTRY_NAME).bind
        (fun contract_addr => some (Contract.new contract_addr aclTrampoline))
  match contract with
  | some c =>
    (some c, (c.check_permissions w (public_to_address public) document).mapError Error.Internal)
  | none => (none, .error (Error.Internal "ACL checker contract is not configured"))

/-- The outcome of a `check` call on a resolved contract, as a function of
the client-call parts of the world only (no registry resolution occurs). -/
def remoteOutcome (alive : Bool)
    (callc : Address → List Nat → Except String (List Nat)) (addr : Address)
    (public : Public) (document : DocumentAddress) : Except Error Bool :=
  ((Contract.new addr aclTrampoline).check_permissions
      ⟨fun _ => none, alive, callc⟩ (public_to_address public) document).mapError
    Error.Internal

/-! ## Sample values used by witnesses -/

def pub1 : Public := [1]

def pub2 : Public := [2]

def doc1 : DocumentAddress := [1]

def doc2 : DocumentAddress := [2]

def addr0 : Address := [5]

/-- A well-formed raw output encoding the boolean `true`. -/
def okRawTrue : List Nat := List.replicate 31 0 ++ [1]

/-- A malformed raw output (wrong length). -/
def badRaw : List Nat := [7]

def wNone : World := ⟨fun _ => none, true, fun _ _ => .ok okRawTrue⟩

def wSome : World := ⟨fun _ => some addr0, true, fun _ _ => .ok okRawTrue⟩

def wDead : World := ⟨fun _ => some addr0, false, fun _ _ => .ok okRawTrue⟩

/-- The call-data bytes produced by `check_permissions` for a given user
address and document: the selector of the canonical signature
`checkPermissions(address,bytes32)` followed by the encoded user address and
the document bytes (proved below to equal the source encoding). -/
def callData (user : Address) (document : H256) : List Nat :=
  selectorBytes "checkPermissions(address,bytes32)" ++
    (List.replicate 12 0 ++ user) ++ document

/-! ## Lemmas about the test double -/

theorem mem_insertSet {d d' : DocumentAddress} {s : List DocumentAddress} :
    d ∈ insertSet d' s ↔ d = d' ∨ d ∈ s := by
  unfold insertSet
  by_cases h : d' ∈ s
  · simp only [if_pos h]
    constructor
    · exact Or.inr
    · rintro (rfl | hm)
      · exact h
      · exact hm
  · simp only [if_neg h, List.mem_cons]

theorem lookupEntry_updateEntry (m : List (Public × List DocumentAddress))
    (p₁ : Public) (d₁ : DocumentAddress) (p : Public) :
    lookupEntry (updateEntry m p₁ d₁) p =
      if p = p₁ then some (insertSet d₁ ((lookupEntry m p₁).getD [])) else lookupEntry m p := by
  induction m with
  | nil =>
    simp only [updateEntry, lookupEntry]
    by_cases h : p = p₁
    · subst h; simp [lookupEntry]
    · have h' : ¬ p₁ = p := fun hh => h hh.symm
      simp [lookupEntry, h, h']
  | cons hd tl ih =>
    obtain ⟨q, s⟩ := hd
    simp only [updateEntry]
    by_cases hq : q = p₁
    · subst hq
      by_cases hp : p = q
      · subst hp; simp [lookupEntry]
      · have hp' : ¬ q = p := fun hh => hp hh.symm
        simp [lookupEntry, hp, hp']
    · simp only [if_neg hq, lookupEntry]
      by_cases hp : q = p
      · have hpp : ¬ p = p₁ := by rw [← hp]; exact hq
        simp [hp, hpp]
      · simp [hp, ih]


theorem check_eq_ok_checkB (st : DummyAclStorage) (p : Public) (d : DocumentAddress) :
    st.check p d = .ok (checkB st p d) := rfl

theorem checkB_prohibit (st : DummyAclStorage) (p₁ : Public) (d₁ : DocumentAddress)
    (p : Public) (d : DocumentAddress) :
    checkB (st.prohibit p₁ d₁) p d =
      if p = p₁ ∧ d = d₁ then false else checkB st p d := by
  unfold checkB DummyAclStorage.prohibit
  simp only [lookupEntry_updateEntry]
  by_cases hp : p = p₁
  · subst hp
    by_cases hd : d = d₁
    · subst hd
      simp [mem_insertSet]
    · simp only [if_pos rfl, hd, and_false, if_false]
      cases hlk : lookupEntry st.prohibited p with
      | none => simp [hlk, mem_insertSet, hd]
      | some docs => simp [hlk, mem_insertSet, hd]
  · simp [hp]

theorem checkB_applyProhibits (ops : List (Public × DocumentAddress))
    (st : DummyAclStorage) (p : Public) (d : DocumentAddress) :
    checkB (applyProhibits st ops) p d =
      (checkB st p d && !(decide ((p, d) ∈ ops))) := by
  induction ops generalizing st with
  | nil => simp [applyProhibits]
  | cons hd tl ih =>
    obtain ⟨p₁, d₁⟩ := hd
    have hstep : applyProhibits st ((p₁, d₁) :: tl) =
        applyProhibits (st.prohibit p₁ d₁) tl := rfl
    rw [hstep, ih, checkB_prohibit]
    by_cases hp : p = p₁ ∧ d = d₁
    · obtain ⟨rfl, rfl⟩ := hp
      simp
    · simp only [if_neg hp]
      have : ¬ (p, d) = (p₁, d₁) := by
        intro hh
        exact hp ⟨congrArg Prod.fst hh, congrArg Prod.snd hh⟩
      simp [this]

theorem checkB_empty (p : Public) (d : DocumentAddress) :
    checkB DummyAclStorage.empty p d = true := rfl

theorem insertSet_idem (d : DocumentAddress) (s : List DocumentAddress) :
    insertSet d (insertSet d s) = insertSet d s := by
  have hmem : d ∈ insertSet d s := mem_insertSet.2 (Or.inl rfl)
  show (if d ∈ insertSet d s then insertSet d s else d :: insertSet d s) = insertSet d s
  rw [if_pos hmem]

theorem updateEntry_idem (m : List (Public × List DocumentAddress)) (p : Public)
    (d : DocumentAddress) :
    updateEntry (updateEntry m p d) p d = updateEntry m p d := by
  induction m with
  | nil => simp [updateEntry, insertSet_idem]
  | cons hd tl ih =>
    obtain ⟨q, s⟩ := hd
    by_cases hq : q = p
    · simp [updateEntry, hq, insertSet_idem]
    · simp [updateEntry, hq, ih]

/-! ## Lemmas about the ABI codec and the on-chain storage -/

theorem signature_checkPermissionsFn :
    checkPermissionsFn.signature = "checkPermissions(address,bytes32)" := by
  decide

theorem interfaceFunction_checkPermissions :
    interfaceFunction aclCheckerInterface "checkPermissions" = .ok checkPermissionsFn := rfl

theorem except_ok_bind {ε α β : Type} (x : α) (f : α → Except ε β) :
    (Except.ok x : Except ε α) >>= f = f x := rfl

theorem encode_call_checkPermissions (user : Address) (document : H256) :
    checkPermissionsFn.encode_call [Token.Address user, Token.FixedBytes document] =
      .ok (callData user document) := by
  unfold FunctionInterface.encode_call callData
  rw [signature_checkPermissionsFn]
  simp [checkPermissionsFn, tokenMatches, encodeToken, List.append_assoc]

theorem check_permissions_eq {W : Type} (addr : Address)
    (do_call : W → Address → List Nat → Except String (List Nat)) (w : W)
    (user : Address) (document : H256) :
    (Contract.new addr do_call).check_permissions w user document =
      (do_call w addr (callData user document)).bind
        (fun raw => (checkPermissionsFn.decode_output raw).bind decode_result) := by
  unfold Contract.check_permissions Contract.new
  rw [show (⟨aclCheckerInterface, addr, do_call⟩ : Contract W).contract = aclCheckerInterface from rfl]
  rw [interfaceFunction_checkPermissions, except_ok_bind]
  rw [encode_call_checkPermissions, except_ok_bind]
  rfl

theorem decodeWord_bool (w : List Nat) (t : Token)
    (h : decodeWord ParamType.bool w = .ok t) : ∃ b, t = Token.Bool b := by
  simp only [decodeWord] at h
  by_cases h0 : w = List.replicate 31 0 ++ [0]
  · rw [if_pos h0] at h
    exact ⟨false, (Except.ok.inj h).symm⟩
  · rw [if_neg h0] at h
    by_cases h1 : w = List.replicate 31 0 ++ [1]
    · rw [if_pos h1] at h
      exact ⟨true, (Except.ok.inj h).symm⟩
    · rw [if_neg h1] at h
      exact absurd h (by simp)

theorem decodeTokens_bool_shape (raw : List Nat) (toks : List Token)
    (h : decodeTokens [ParamType.bool] raw = .ok toks) :
    ∃ b, toks = [Token.Bool b] := by
  simp only [decodeTokens] at h
  by_cases hl : raw.length < 32
  · rw [if_pos hl] at h
    exact absurd h (by simp)
  · rw [if_neg hl] at h
    by_cases hr : raw.drop 32 = []
    · rw [if_pos hr] at h
      cases hw : decodeWord ParamType.bool (raw.take 32) with
      | error e =>
        rw [hw] at h
        exact absurd (show (Except.error e : Except String (List Token)) = .ok toks from h)
          (by simp)
      | ok tok =>
        rw [hw] at h
        obtain ⟨b, rfl⟩ := decodeWord_bool _ _ hw
        have h' : (Except.ok [Token.Bool b] : Except String (List Token)) = .ok toks := h
        exact ⟨b, (Except.ok.inj h').symm⟩
    · rw [if_neg hr] at h
      cases hw : decodeWord ParamType.bool (raw.take 32) with
      | error e =>
        rw [hw] at h
        exact absurd (show (Except.error e : Except String (List Token)) = .ok toks from h)
          (by simp)
      | ok tok =>
        rw [hw] at h
        exact absurd
          (show (Except.error "Invalid data length" : Except String (List Token)) = .ok toks from h)
          (by simp)

theorem decode_result_singleton (b : Bool) :
    decode_result [Token.Bool b] = .ok b := rfl

theorem aclTrampoline_registry_free (w : World) :
    aclTrampoline w = aclTrampoline ⟨fun _ => none, w.clientAlive, w.call_contract⟩ := by
  funext a d
  cases w
  rfl

theorem onchain_check_resolved (c : Contract World) (w : World) (p : Public)
    (d : DocumentAddress) :
    OnChainAclStorage.check (some c) w p d =
      (some c, (c.check_permissions w (public_to_address p) d).mapError Error.Internal) := rfl

/-! ## Claims -/

/-- C1: For the in-memory test double (`DummyAclStorage`): for every
identity `p` and document `d`, and every prior sequence `ops` of
`prohibit` calls on a fresh double, `check(p, d)` returns `Ok(true)`
unless `prohibit(p, d)` occurs in `ops`, after which it returns
`Ok(false)`. -/
theorem C1_dummy_default_allow_until_prohibited
    (ops : List (Public × DocumentAddress)) (p : Public) (d : DocumentAddress) :
    (applyProhibits DummyAclStorage.empty ops).check p d =
      .ok (decide ((p, d) ∉ ops)) := by
  rw [check_eq_ok_checkB, checkB_applyProhibits, checkB_empty]
  simp [decide_not]

/-- C5: Frame property of `prohibit`: for every state of the denial set and
every pair `(p₁, d₁)`, calling `prohibit(p₁, d₁)` leaves the result of
`check(p', d')` unchanged for every pair `(p', d')` different from
`(p₁, d₁)`. -/
theorem C5_dummy_prohibit_frame (st : DummyAclStorage) (p₁ p' : Public)
    (d₁ d' : DocumentAddress) (h : ¬ (p' = p₁ ∧ d' = d₁)) :
    (st.prohibit p₁ d₁).check p' d' = st.check p' d' := by
  rw [check_eq_ok_checkB, check_eq_ok_checkB, checkB_prohibit, if_neg h]

/-- Witness for C5: after `prohibit(P1, D1)` on a fresh double, the results
of `check(P1, D2)` and `check(P2, D1)` equal those on the fresh double (and
hence are `Ok(true)`). -/
theorem C5_dummy_prohibit_frame_witness :
    ((DummyAclStorage.empty.prohibit pub1 doc1).check pub1 doc2 =
        DummyAclStorage.empty.check pub1 doc2) ∧
    ((DummyAclStorage.empty.prohibit pub1 doc1).check pub2 doc1 =
        DummyAclStorage.empty.check pub2 doc1) :=
  ⟨C5_dummy_prohibit_frame DummyAclStorage.empty pub1 pub1 doc1 doc2 (by decide),
   C5_dummy_prohibit_frame DummyAclStorage.empty pub1 pub2 doc1 doc1 (by decide)⟩

/-- C6: `DummyAclStorage::check` never returns an error: for every state of
the denial set (hence after any prior sequence of `prohibit` calls) and
every identity and document, the result is `Ok(_)`. -/
theorem C6_dummy_check_never_errors (st : DummyAclStorage) (p : Public)
    (d : DocumentAddress) : ∃ b : Bool, st.check p d = .ok b :=
  ⟨checkB st p d, rfl⟩

/-- C10: `prohibit` is idempotent (prohibiting the same pair twice yields
the same denial-set state as prohibiting it once) and denial is permanent
(once `check(p, d)` is `Ok(false)`, no further sequence of `prohibit` calls
can make it `Ok(true)` again). -/
theorem C10_dummy_prohibit_idempotent_permanent (st : DummyAclStorage)
    (p : Public) (d : DocumentAddress) :
    (st.prohibit p d).prohibit p d = st.prohibit p d ∧
    (st.check p d = .ok false →
      ∀ ops : List (Public × DocumentAddress),
        (applyProhibits st ops).check p d = .ok false) := by
  constructor
  · show (⟨updateEntry (updateEntry st.prohibited p d) p d⟩ : DummyAclStorage) =
      ⟨updateEntry st.prohibited p d⟩
    rw [updateEntry_idem]
  · intro h ops
    rw [check_eq_ok_checkB] at h
    have hb : checkB st p d = false := Except.ok.inj h
    rw [check_eq_ok_checkB, checkB_applyProhibits, hb]
    simp

/-- Witness for C10: on a double where `(P1, D1)` has been prohibited,
prohibiting it again leaves the state unchanged, and a further `prohibit`
call on another pair leaves `check(P1, D1) == Ok(false)`. -/
theorem C10_dummy_prohibit_idempotent_permanent_witness :
    ((DummyAclStorage.empty.prohibit pub1 doc1).prohibit pub1 doc1 =
        DummyAclStorage.empty.prohibit pub1 doc1) ∧
    (applyProhibits (DummyAclStorage.empty.prohibit pub1 doc1)
        [(pub2, doc2)]).check pub1 doc1 = .ok false :=
  ⟨(C10_dummy_prohibit_idempotent_permanent DummyAclStorage.empty pub1 doc1).1,
   (C10_dummy_prohibit_idempotent_permanent (DummyAclStorage.empty.prohibit pub1 doc1)
       pub1 doc1).2 rfl [(pub2, doc2)]⟩

/-- C2: while the cached binding is empty, a `check` under a world whose
registry resolution returns none yields the diagnostic error and leaves the
binding empty (so the next call re-attempts resolution); and under a world
whose resolution succeeds, the very next `check` caches the resolved
contract and its outcome is a function of the remote-call parts of the world
only. -/
theorem C2_onchain_unresolved_idempotent_retry (w : World) (p : Public)
    (d : DocumentAddress) :
    (w.registry_address ACL_CHECKER_CONTRACT_REGISTRY_NAME = none →
      OnChainAclStorage.check none w p d =
        (none, .error (Error.Internal "ACL checker contract is not configured"))) ∧
    (∀ addr : Address,
      w.registry_address ACL_CHECKER_CONTRACT_REGISTRY_NAME = some addr →
      OnChainAclStorage.check none w p d =
        (some (Contract.new addr aclTrampoline),
          remoteOutcome w.clientAlive w.call_contract addr p d)) := by
  constructor
  · intro h
    unfold OnChainAclStorage.check
    rw [h]
    rfl
  · intro addr h
    have hcp : (Contract.new addr aclTrampoline).check_permissions w
          (public_to_address p) d =
        (Contract.new addr aclTrampoline).check_permissions
          ⟨fun _ => none, w.clientAlive, w.call_contract⟩ (public_to_address p) d := by
      rw [check_permissions_eq, check_permissions_eq, aclTrampoline_registry_free w]
    have hstep : OnChainAclStorage.check none w p d =
        (some (Contract.new addr aclTrampoline),
          ((Contract.new addr aclTrampoline).check_permissions w
              (public_to_address p) d).mapError Error.Internal) := by
      unfold OnChainAclStorage.check
      rw [h]
      rfl
    rw [hstep, hcp]
    rfl

/-- Witness for C2: with a world that never resolves the registry name, an
unresolved `check` returns the configuration error and leaves the state
empty; with a world resolving it to `addr0`, the next `check` caches the
contract and produces the remote-call outcome. -/
theorem C2_onchain_unresolved_idempotent_retry_witness :
    (OnChainAclStorage.check none wNone pub1 doc1 =
      (none, .error (Error.Internal "ACL checker contract is not configured"))) ∧
    (OnChainAclStorage.check none wSome pub1 doc1 =
      (some (Contract.new addr0 aclTrampoline),
        remoteOutcome wSome.clientAlive wSome.call_contract addr0 pub1 doc1)) :=
  ⟨(C2_onchain_unresolved_idempotent_retry wNone pub1 doc1).1 rfl,
   (C2_onchain_unresolved_idempotent_retry wSome pub1 doc1).2 addr0 rfl⟩

/-- C3: once the binding holds a resolved contract, `check` never clears or
replaces it, and on a contract produced by resolution the whole result of
`check` is independent of the registry-resolution component of the world,
so resolution is not invoked again. -/
theorem C3_onchain_resolved_binding_stable (addr : Address) (p : Public)
    (d : DocumentAddress) :
    (∀ (c : Contract World) (w : World),
      (OnChainAclStorage.check (some c) w p d).1 = some c) ∧
    (∀ (r₁ r₂ : String → Option Address) (alive : Bool)
        (callc : Address → List Nat → Except String (List Nat)),
      OnChainAclStorage.check (some (Contract.new addr aclTrampoline))
          ⟨r₁, alive, callc⟩ p d =
        OnChainAclStorage.check (some (Contract.new addr aclTrampoline))
          ⟨r₂, alive, callc⟩ p d) := by
  constructor
  · intro c w
    rfl
  · intro r₁ r₂ alive callc
    rw [onchain_check_resolved, onchain_check_resolved,
      check_permissions_eq, check_permissions_eq,
      aclTrampoline_registry_free ⟨r₁, alive, callc⟩,
      aclTrampoline_registry_free ⟨r₂, alive, callc⟩]

/-- C9: the call trampoline resolves its weak client handle at call time:
under a world in which the client is gone, the trampoline returns the
`"No client!"` error for every call, and a `check` on a resolved binding
fails with that diagnostic error instead of panicking or defaulting. -/
theorem C9_trampoline_dead_client (addr : Address) (w : World) (p : Public)
    (d : DocumentAddress) (h : w.clientAlive = false) :
    (∀ (a : Address) (data : List Nat),
      aclTrampoline w a data = .error "No client!") ∧
    OnChainAclStorage.check (some (Contract.new addr aclTrampoline)) w p d =
      (some (Contract.new addr aclTrampoline),
        .error (Error.Internal "No client!")) := by
  have htr : ∀ (a : Address) (data : List Nat),
      aclTrampoline w a data = .error "No client!" := by
    intro a data
    unfold aclTrampoline
    rw [h]
    rfl
  refine ⟨htr, ?_⟩
  rw [onchain_check_resolved, check_permissions_eq, htr]
  rfl

/-- Witness for C9: in the concrete dead-client world `wDead` the
trampoline fails with `"No client!"` and so does a resolved `check`. -/
theorem C9_trampoline_dead_client_witness :
    aclTrampoline wDead addr0 [] = .error "No client!" ∧
    OnChainAclStorage.check (some (Contract.new addr0 aclTrampoline)) wDead pub1 doc1 =
      (some (Contract.new addr0 aclTrampoline),
        .error (Error.Internal "No client!")) :=
  ⟨(C9_trampoline_dead_client addr0 wDead pub1 doc1 rfl).1 addr0 [],
   (C9_trampoline_dead_client addr0 wDead pub1 doc1 rfl).2⟩

/-- C4: for every raw output returned by the call trampoline, if the
decoded output is not exactly one boolean value then `check_permissions`
returns an error; and whenever it returns `Ok(b)`, the decoded output was
exactly the singleton boolean `b` — never a silently defaulted boolean. -/
theorem C4_decode_rejects_malformed_output (addr user : Address)
    (document : H256) (raw : List Nat) :
    (∀ b : Bool,
      (Contract.new addr (fun (_ : Unit) _ _ => Except.ok raw)).check_permissions
          () user document = .ok b →
        checkPermissionsFn.decode_output raw = .ok [Token.Bool b]) ∧
    ((∀ b : Bool, checkPermissionsFn.decode_output raw ≠ .ok [Token.Bool b]) →
      ∃ msg : String,
        (Contract.new addr (fun (_ : Unit) _ _ => Except.ok raw)).check_permissions
            () user document = .error msg) := by
  have heq : (Contract.new addr (fun (_ : Unit) _ _ => Except.ok raw)).check_permissions
        () user document = (checkPermissionsFn.decode_output raw).bind decode_result :=
    check_permissions_eq addr (fun _ _ _ => Except.ok raw) () user document
  constructor
  · intro b hb
    rw [heq] at hb
    cases hdec : checkPermissionsFn.decode_output raw with
    | error e =>
      rw [hdec] at hb
      exact absurd (show (Except.error e : Except String Bool) = .ok b from hb) (by simp)
    | ok toks =>
      obtain ⟨b', rfl⟩ := decodeTokens_bool_shape raw toks hdec
      rw [hdec] at hb
      have h2 : decode_result [Token.Bool b'] = .ok b := hb
      rw [decode_result_singleton] at h2
      rw [Except.ok.inj h2]
  · intro hnb
    rw [heq]
    cases hdec : checkPermissionsFn.decode_output raw with
    | error e =>
      exact ⟨e, rfl⟩
    | ok toks =>
      obtain ⟨b', rfl⟩ := decodeTokens_bool_shape raw toks hdec
      exact absurd hdec (hnb b')

/-- Witness for C4: on the well-formed raw output encoding `true` the call
returns `Ok(true)` and the decoded output is the singleton boolean `true`;
on a malformed raw output the call returns an error. -/
theorem C4_decode_rejects_malformed_output_witness :
    checkPermissionsFn.decode_output okRawTrue = .ok [Token.Bool true] ∧
    ∃ msg : String,
      (Contract.new addr0 (fun (_ : Unit) _ _ => Except.ok badRaw)).check_permissions
          () addr0 doc1 = .error msg :=
  ⟨(C4_decode_rejects_malformed_output addr0 addr0 doc1 okRawTrue).1 true rfl,
   (C4_decode_rejects_malformed_output addr0 addr0 doc1 badRaw).2
     (fun b h => Except.noConfusion
       (show (Except.error "Invalid data length" : Except String (List Token)) =
           .ok [Token.Bool b] from h))⟩

/-- C7: the contract wrapper exposes exactly one function, of canonical
textual signature `checkPermissions(address,bytes32)` with inputs
`(address, bytes32)` and output `(bool)`; `check_permissions` sends the
selector of that signature followed by the encoded user address (first) and
the document bytes (second); and the production `check` passes the account
address derived from the supplied public key as the user argument. -/
theorem C7_wire_shape (addr : Address) (w : World) (p : Public)
    (d : DocumentAddress) :
    aclCheckerInterface = [checkPermissionsFn] ∧
    checkPermissionsFn.signature = "checkPermissions(address,bytes32)" ∧
    checkPermissionsFn.inputs = [ParamType.address, ParamType.bytes32] ∧
    checkPermissionsFn.outputs = [ParamType.bool] ∧
    (∀ (user : Address) (document : H256)
        (do_call : World → Address → List Nat → Except String (List Nat)),
      (Contract.new addr do_call).check_permissions w user document =
        (do_call w addr
            (selectorBytes "checkPermissions(address,bytes32)" ++
              (List.replicate 12 0 ++ user) ++ document)).bind
          (fun raw => (checkPermissionsFn.decode_output raw).bind decode_result)) ∧
    (OnChainAclStorage.check (some (Contract.new addr aclTrampoline)) w p d).2 =
      ((Contract.new addr aclTrampoline).check_permissions w
          (public_to_address p) d).mapError Error.Internal := by
  refine ⟨rfl, signature_checkPermissionsFn, rfl, rfl, ?_, rfl⟩
  intro user document do_call
  exact check_permissions_eq addr do_call w user document

/-- C8: encoding is deterministic: for each fixed pair of user address and
document there is a single call-data byte sequence that `encode_call`
produces and that every run of `check_permissions`, whatever its call
closure and ambient world, sends to the contract address. -/
theorem C8_encoding_deterministic (user : Address) (document : H256) :
    ∃ data : List Nat,
      checkPermissionsFn.encode_call [Token.Address user, Token.FixedBytes document] =
        .ok data ∧
      ∀ (W : Type) (addr : Address)
          (do_call : W → Address → List Nat → Except String (List Nat)) (w : W),
        (Contract.new addr do_call).check_permissions w user document =
          (do_call w addr data).bind
            (fun raw => (checkPermissionsFn.decode_output raw).bind decode_result) :=
  ⟨callData user document, encode_call_checkPermissions user document,
   fun _ addr do_call w => check_permissions_eq addr do_call w user document⟩

end AclStorageModel
